import Mathlib

/-!
# Verification of the humanitarian-negotiation analysis tools

A shallow embedding of the stakeholder / influence computations of
`humanitarian_negotiation_mcp.py` and of the REST wrapper `http_server.py`,
together with proofs of the specification's claims about them.

Numeric attributes (`power`, `urgency`, `legitimacy`, `position`) are embedded
as exact rationals (`ℚ`): the program only compares and adds them against
decimal constants, and no claim depends on binary floating-point rounding.
Python dictionaries are embedded as association lists with insertion-order
semantics (an assignment to an existing key keeps its position and replaces its
value), matching CPython's documented dict behaviour.  `list.sort` /
`sorted(...)` with `reverse=True` is embedded as a stable insertion sort that
places an element strictly before every element strictly smaller under the sort
key, which is exactly Python's documented semantics (stable, descending).
-/

namespace HNeg

/-! ## A stable descending sort, modelling Python `sorted(..., reverse=True)` -/

section PySort

variable {α : Type} (r : α → α → Prop) [DecidableRel r]

/-- Insert `x` into `l`, placing it before the first element that `x` is
strictly greater than (`r x h`), hence after every earlier element that is
greater than or tied with `x`.  Folding this over a list yields exactly
Python's stable descending sort when `r` is the strict "greater in sort key"
relation. -/
def insertDesc (x : α) : List α → List α
  | [] => [x]
  | h :: t => if r x h then x :: h :: t else h :: insertDesc x t

/-- Python's `sorted(l, key=k, reverse=True)`: stable, descending in the key;
`r a b` must hold exactly when `k a > k b`. -/
def pySortDesc (l : List α) : List α :=
  l.foldl (fun acc x => insertDesc r x acc) []

theorem mem_insertDesc {x y : α} : ∀ {l : List α}, y ∈ insertDesc r x l ↔ y = x ∨ y ∈ l
  | [] => by simp [insertDesc]
  | h :: t => by
    by_cases hr : r x h
    · simp [insertDesc, hr]
    · simp [insertDesc, hr, mem_insertDesc (l := t), or_left_comm]

theorem insertDesc_perm (x : α) : ∀ l : List α, List.Perm (insertDesc r x l) (x :: l)
  | [] => by simp [insertDesc]
  | h :: t => by
    by_cases hr : r x h
    · simp [insertDesc, hr]
    · simpa [insertDesc, hr] using
        ((insertDesc_perm x t).cons h).trans (List.Perm.swap x h t)

theorem foldl_insertDesc_perm :
    ∀ (l acc : List α), List.Perm (l.foldl (fun a x => insertDesc r x a) acc) (acc ++ l)
  | [], acc => by simp
  | x :: t, acc => by
    have h1 : (x :: t).foldl (fun a y => insertDesc r y a) acc
        = t.foldl (fun a y => insertDesc r y a) (insertDesc r x acc) := rfl
    rw [h1]
    exact ((foldl_insertDesc_perm t (insertDesc r x acc)).trans
      ((insertDesc_perm r x acc).append_right t)).trans List.perm_middle.symm

theorem pySortDesc_perm (l : List α) : List.Perm (pySortDesc r l) l := by
  simpa [pySortDesc] using foldl_insertDesc_perm r l []

theorem insertDesc_pairwise (htr : Transitive r) (hasym : ∀ a b, r a b → ¬ r b a)
    {x : α} : ∀ {l : List α}, l.Pairwise (fun a b => ¬ r b a) →
    (insertDesc r x l).Pairwise (fun a b => ¬ r b a)
  | [], _ => by simp [insertDesc]
  | h :: t, hl => by
    rw [List.pairwise_cons] at hl
    obtain ⟨hh, ht⟩ := hl
    by_cases hr : r x h
    · rw [insertDesc, if_pos hr]
      refine List.Pairwise.cons ?_ (List.Pairwise.cons hh ht)
      intro z hz
      rcases List.mem_cons.mp hz with hz | hz
      · exact hz.symm ▸ hasym x h hr
      · intro hzx
        exact hh z hz (htr hzx hr)
    · rw [insertDesc, if_neg hr]
      refine List.Pairwise.cons ?_ (insertDesc_pairwise htr hasym ht)
      intro z hz
      rcases (mem_insertDesc r).mp hz with hz | hz
      · subst hz; exact hr
      · exact hh z hz

theorem foldl_insertDesc_pairwise (htr : Transitive r) (hasym : ∀ a b, r a b → ¬ r b a) :
    ∀ (l acc : List α), acc.Pairwise (fun a b => ¬ r b a) →
    (l.foldl (fun a x => insertDesc r x a) acc).Pairwise (fun a b => ¬ r b a)
  | [], _, hacc => hacc
  | x :: t, acc, hacc =>
    foldl_insertDesc_pairwise htr hasym t (insertDesc r x acc)
      (insertDesc_pairwise r htr hasym hacc)

theorem pySortDesc_pairwise (htr : Transitive r) (hasym : ∀ a b, r a b → ¬ r b a)
    (l : List α) : (pySortDesc r l).Pairwise (fun a b => ¬ r b a) :=
  foldl_insertDesc_pairwise r htr hasym l [] (by simp)

/-- The sort relation lifted to index-tagged elements (tags are ignored). -/
def rFst : (α × ℕ) → (α × ℕ) → Prop := fun p q => r p.1 q.1

instance : DecidableRel (rFst r) := fun p q => inferInstanceAs (Decidable (r p.1 q.1))

/-- Strict "must come before" order of a stable descending sort over
index-tagged elements: either strictly greater in the key, or tied in the key
and earlier in the input. -/
def stRel (p q : α × ℕ) : Prop :=
  r p.1 q.1 ∨ (¬ r p.1 q.1 ∧ ¬ r q.1 p.1 ∧ p.2 < q.2)

theorem insertDesc_stable (htr : Transitive r)
    (hneg : ∀ a b c, ¬ r a b → ¬ r b c → ¬ r a c) {x : α × ℕ} :
    ∀ {l : List (α × ℕ)}, (∀ y ∈ l, y.2 < x.2) → l.Pairwise (stRel r) →
    (insertDesc (rFst r) x l).Pairwise (stRel r)
  | [], _, _ => by simp [insertDesc]
  | h :: t, hidx, hl => by
    rw [List.pairwise_cons] at hl
    obtain ⟨hh, ht⟩ := hl
    by_cases hr : r x.1 h.1
    · rw [insertDesc, if_pos (show rFst r x h from hr)]
      refine List.Pairwise.cons ?_ (List.Pairwise.cons hh ht)
      intro z hz
      rcases List.mem_cons.mp hz with hz | hz
      · exact hz.symm ▸ Or.inl hr
      · rcases hh z hz with hz' | ⟨hz1, hz2, _⟩
        · exact Or.inl (htr hr hz')
        · refine Or.inl ?_
          by_contra hxz
          exact (hneg x.1 z.1 h.1 hxz hz2) hr
    · rw [insertDesc, if_neg (show ¬ rFst r x h from hr)]
      refine List.Pairwise.cons ?_
        (insertDesc_stable htr hneg (fun y hy => hidx y (List.mem_cons_of_mem h hy)) ht)
      intro z hz
      rcases (mem_insertDesc (rFst r)).mp hz with hz | hz
      · rw [hz]
        by_cases hhx : r h.1 x.1
        · exact Or.inl hhx
        · exact Or.inr ⟨hhx, hr, hidx h (List.mem_cons_self h t)⟩
      · exact hh z hz

theorem foldl_insertDesc_stable (htr : Transitive r)
    (hneg : ∀ a b c, ¬ r a b → ¬ r b c → ¬ r a c) :
    ∀ (l acc : List (α × ℕ)), acc.Pairwise (stRel r) →
    (∀ y ∈ acc, ∀ x ∈ l, y.2 < x.2) → l.Pairwise (fun p q => p.2 < q.2) →
    (l.foldl (fun a x => insertDesc (rFst r) x a) acc).Pairwise (stRel r)
  | [], acc, hacc, _, _ => hacc
  | x :: t, acc, hacc, hsep, hl => by
    rw [List.pairwise_cons] at hl
    obtain ⟨hx, ht⟩ := hl
    refine foldl_insertDesc_stable htr hneg t (insertDesc (rFst r) x acc) ?_ ?_ ht
    · exact insertDesc_stable r htr hneg
        (fun y hy => hsep y hy x (List.mem_cons_self x t)) hacc
    · intro y hy z hz
      rcases (mem_insertDesc (rFst r)).mp hy with hy | hy
      · subst hy; exact hx z hz
      · exact hsep y hy z (List.mem_cons_of_mem x hz)

theorem pySortDesc_stable (htr : Transitive r)
    (hneg : ∀ a b c, ¬ r a b → ¬ r b c → ¬ r a c) (l : List (α × ℕ))
    (hl : l.Pairwise (fun p q => p.2 < q.2)) :
    (pySortDesc (rFst r) l).Pairwise (stRel r) :=
  foldl_insertDesc_stable r htr hneg l [] (by simp) (by simp) hl

theorem insertDesc_map_fst (x : α × ℕ) :
    ∀ l : List (α × ℕ),
    (insertDesc (rFst r) x l).map Prod.fst = insertDesc r x.1 (l.map Prod.fst)
  | [] => by simp [insertDesc]
  | h :: t => by
    by_cases hr : r x.1 h.1
    · rw [insertDesc, if_pos (show rFst r x h from hr)]
      rw [show (h :: t).map Prod.fst = h.1 :: t.map Prod.fst from rfl,
        insertDesc, if_pos hr]
      rfl
    · rw [insertDesc, if_neg (show ¬ rFst r x h from hr)]
      rw [show (h :: t).map Prod.fst = h.1 :: t.map Prod.fst from rfl,
        insertDesc, if_neg hr]
      simpa using insertDesc_map_fst x t

theorem foldl_insertDesc_map_fst :
    ∀ (l acc : List (α × ℕ)),
    (l.foldl (fun a x => insertDesc (rFst r) x a) acc).map Prod.fst
      = (l.map Prod.fst).foldl (fun a x => insertDesc r x a) (acc.map Prod.fst)
  | [], acc => rfl
  | x :: t, acc => by
    have := foldl_insertDesc_map_fst t (insertDesc (rFst r) x acc)
    simpa [insertDesc_map_fst] using this

theorem pySortDesc_map_fst (l : List (α × ℕ)) :
    (pySortDesc (rFst r) l).map Prod.fst = pySortDesc r (l.map Prod.fst) := by
  simpa [pySortDesc] using foldl_insertDesc_map_fst r l []

end PySort

/-- Tag the elements of a list with their positions, starting at `n`. -/
def indexFrom {α : Type} : ℕ → List α → List (α × ℕ)
  | _, [] => []
  | n, x :: t => (x, n) :: indexFrom (n + 1) t

theorem indexFrom_map_fst {α : Type} : ∀ (n : ℕ) (l : List α),
    (indexFrom n l).map Prod.fst = l
  | _, [] => rfl
  | n, x :: t => by simp [indexFrom, indexFrom_map_fst (n + 1) t]

theorem indexFrom_le {α : Type} : ∀ (n : ℕ) (l : List α), ∀ y ∈ indexFrom n l, n ≤ y.2
  | _, [], _, hy => by simp [indexFrom] at hy
  | n, x :: t, y, hy => by
    rw [indexFrom, List.mem_cons] at hy
    rcases hy with hy | hy
    · rw [hy]
    · exact le_trans (by omega) (indexFrom_le (n + 1) t y hy)

theorem indexFrom_pairwise {α : Type} : ∀ (n : ℕ) (l : List α),
    (indexFrom n l).Pairwise (fun p q => p.2 < q.2)
  | _, [] => by simp [indexFrom]
  | n, x :: t => by
    rw [indexFrom]
    refine List.Pairwise.cons ?_ (indexFrom_pairwise (n + 1) t)
    intro y hy
    have h1 := indexFrom_le (n + 1) t y hy
    show n < y.2
    omega

/-! ## Data model of the tool server (`humanitarian_negotiation_mcp.py`) -/

/-- Pydantic model `StakeholderInfo` (lines 605-657): a validated stakeholder
record.  `role` and `influence_connections` are `Optional` in the source. -/
structure StakeholderInfo where
  name : String
  power : ℚ
  urgency : ℚ
  legitimacy : ℚ
  position : ℚ
  role : Option String
  influence_connections : Option (List String)
deriving DecidableEq

/-- One entry of `stakeholder_analysis` as assembled by
`_analyze_stakeholder_landscape` (lines 789-801). -/
structure SAnalysis where
  name : String
  role : String
  power : ℚ
  urgency : ℚ
  legitimacy : ℚ
  position : ℚ
  stance : String
  priority : String
  priority_score : ℕ
  engagement_strategy : String
  influence_connections : List String
deriving DecidableEq

/-- Stance derivation of `_analyze_stakeholder_landscape`, lines 781-787. -/
def stanceOf (position : ℚ) : String :=
  if position ≥ mkRat 1 2 then "Supportive"
  else if position ≤ mkRat (-1) 2 then "Opposed"
  else "Neutral"

/-- `high_attrs`: number of attributes among power, urgency, legitimacy that
are at least `0.7` (lines 764-768). -/
def highAttrs (sh : StakeholderInfo) : ℕ :=
  (if sh.power ≥ mkRat 7 10 then 1 else 0)
    + (if sh.urgency ≥ mkRat 7 10 then 1 else 0)
    + (if sh.legitimacy ≥ mkRat 7 10 then 1 else 0)

/-- The per-record body of the loop in `_analyze_stakeholder_landscape`
(lines 762-801): priority/strategy from the count of high attributes, stance
from the position, defaults for the optional fields. -/
def analyzeOne (sh : StakeholderInfo) : SAnalysis :=
  let high_attrs := highAttrs sh
  let pr :=
    if high_attrs = 3 then
      ("First Priority", "Actively engage and manage opposition")
    else if high_attrs = 2 then
      ("Second Priority", "Selective engagement - leverage allies, monitor risks")
    else
      ("Third Priority", "Minimal engagement unless influence increases")
  { name := sh.name
    role := sh.role.getD "Not specified"
    power := sh.power
    urgency := sh.urgency
    legitimacy := sh.legitimacy
    position := sh.position
    stance := stanceOf sh.position
    priority := pr.1
    priority_score := high_attrs
    engagement_strategy := pr.2
    influence_connections := sh.influence_connections.getD [] }

/-- Strict comparison behind
`stakeholder_analysis.sort(key=lambda x: (x['priority_score'], x['power']), reverse=True)`
(line 804): `recGt a b` holds when `a`'s key tuple is strictly greater. -/
def recGt (a b : SAnalysis) : Prop :=
  b.priority_score < a.priority_score
    ∨ (a.priority_score = b.priority_score ∧ b.power < a.power)

instance : DecidableRel recGt := fun a b => by
  unfold recGt
  infer_instance

theorem recGt_trans : Transitive recGt := by
  intro a b c h1 h2
  rcases h1 with h1 | ⟨h1e, h1p⟩ <;> rcases h2 with h2 | ⟨h2e, h2p⟩
  · exact Or.inl (by omega)
  · exact Or.inl (by omega)
  · exact Or.inl (by omega)
  · exact Or.inr ⟨by omega, lt_trans h2p h1p⟩

theorem recGt_asymm : ∀ a b, recGt a b → ¬ recGt b a := by
  intro a b h1 h2
  rcases h1 with h1 | ⟨h1e, h1p⟩ <;> rcases h2 with h2 | ⟨h2e, h2p⟩
  · omega
  · omega
  · omega
  · exact absurd (lt_trans h1p h2p) (lt_irrefl _)

theorem recGt_negtrans : ∀ a b c, ¬ recGt a b → ¬ recGt b c → ¬ recGt a c := by
  intro a b c h1 h2
  unfold recGt at h1 h2 ⊢
  push_neg at h1 h2 ⊢
  obtain ⟨h1a, h1b⟩ := h1
  obtain ⟨h2a, h2b⟩ := h2
  refine ⟨by omega, ?_⟩
  intro he
  have hab : a.priority_score = b.priority_score := by omega
  have hbc : b.priority_score = c.priority_score := by omega
  exact le_trans (h1b hab) (h2b hbc)

/-- Strict comparison behind
`sorted([(name, count), ...], key=lambda x: x[1], reverse=True)`
(lines 852-863): greater degree count first. -/
def cntGt (a b : String × ℕ) : Prop := b.2 < a.2

instance : DecidableRel cntGt := fun a b => by
  unfold cntGt
  infer_instance

theorem cntGt_trans : Transitive cntGt := by
  intro a b c h1 h2
  unfold cntGt at *
  omega

theorem cntGt_asymm : ∀ a b, cntGt a b → ¬ cntGt b a := by
  intro a b h1 h2
  unfold cntGt at *
  omega

theorem cntGt_negtrans : ∀ a b c, ¬ cntGt a b → ¬ cntGt b c → ¬ cntGt a c := by
  intro a b c h1 h2
  unfold cntGt at *
  omega

/-! ## Python dict embedding

A CPython dict is insertion-ordered; assigning to an existing key keeps its
position and replaces the value.  We embed dicts over string keys as
association lists with exactly that semantics. -/

/-- `m[k] = v` on a Python dict. -/
def dictSet (m : List (String × List String)) (k : String) (v : List String) :
    List (String × List String) :=
  if m.any (fun p => p.1 == k) then
    m.map (fun p => if p.1 == k then (k, v) else p)
  else
    m ++ [(k, v)]

/-- `m.setdefault(k, []).append(v)` — the idiom at lines 847-849. -/
def dictAppend (m : List (String × List String)) (k : String) (v : String) :
    List (String × List String) :=
  if m.any (fun p => p.1 == k) then
    m.map (fun p => if p.1 == k then (p.1, p.2 ++ [v]) else p)
  else
    m ++ [(k, [v])]

/-- `influence_map` of `_analyze_relationships` (lines 841-845): name ↦ that
record's `influence_connections` (a later duplicate name overwrites). -/
def influenceMap (l : List SAnalysis) : List (String × List String) :=
  l.foldl (fun m sh => dictSet m sh.name sh.influence_connections) []

/-- `influenced_by` of `_analyze_relationships` (lines 842-849): reverse
adjacency, keyed by each influenced name (including names that match no
record in the batch). -/
def influencedBy (l : List SAnalysis) : List (String × List String) :=
  l.foldl
    (fun m sh => sh.influence_connections.foldl (fun m' inf => dictAppend m' inf sh.name) m)
    []

/-- The `(name, len(connections))` pairs fed to the `connectors` sort
(line 853). -/
def connectorEntries (l : List SAnalysis) : List (String × ℕ) :=
  (influenceMap l).map (fun p => (p.1, p.2.length))

/-- The `(name, len(influencers))` pairs fed to the `influencers` sort
(line 860). -/
def influencerEntries (l : List SAnalysis) : List (String × ℕ) :=
  (influencedBy l).map (fun p => (p.1, p.2.length))

/-- Result of `_analyze_relationships` (lines 865-869). -/
structure RelationshipAnalysis where
  key_connectors : List (String × ℕ)
  key_influencers : List (String × ℕ)
  total_connections : ℕ
deriving DecidableEq

/-- `_analyze_relationships` (lines 837-869). -/
def analyze_relationships (l : List SAnalysis) : RelationshipAnalysis :=
  { key_connectors := (pySortDesc cntGt (connectorEntries l)).take 5
    key_influencers := (pySortDesc cntGt (influencerEntries l)).take 5
    total_connections := ((influenceMap l).map (fun p => p.2.length)).sum }

/-- The analysis dictionary built by `_analyze_stakeholder_landscape`
(lines 814-832).  The `metadata.context`/`analysis_date` strings and the
fixed `engagement_strategies` text blocks are pure template content and are
not modelled. -/
structure Landscape where
  total_stakeholders : ℕ
  all_stakeholders : List SAnalysis
  first_priority : List SAnalysis
  second_priority : List SAnalysis
  third_priority : List SAnalysis
  relationship_analysis : RelationshipAnalysis
deriving DecidableEq

/-- `_analyze_stakeholder_landscape` (lines 753-834): classify each record,
sort by (priority_score, power) descending (Python's stable sort), group by
priority, and run the relationship analysis on the sorted list. -/
def analyze_stakeholder_landscape (stakeholders : List StakeholderInfo) : Landscape :=
  let stakeholder_analysis := stakeholders.map analyzeOne
  let sorted := pySortDesc recGt stakeholder_analysis
  { total_stakeholders := stakeholders.length
    all_stakeholders := sorted
    first_priority := sorted.filter (fun s => s.priority == "First Priority")
    second_priority := sorted.filter (fun s => s.priority == "Second Priority")
    third_priority := sorted.filter (fun s => s.priority == "Third Priority")
    relationship_analysis := analyze_relationships sorted }

/-- The characterization-table rows of `_format_stakeholder_markdown`
(lines 935-936), one per entry of `all_stakeholders` in order.  The numeric
cells (`:.1f`-formatted floats) are display-only and elided. -/
def stakeholderTableRows (analysis : Landscape) : List String :=
  analysis.all_stakeholders.map
    (fun sh => "| " ++ sh.name ++ " | " ++ sh.role ++ " | " ++ sh.stance
      ++ " | " ++ sh.priority ++ " |")

/-! ## Data model of the REST wrapper (`http_server.py`) -/

/-- Pydantic model `StakeholderInput` of the HTTP server (lines 134-144). -/
structure StakeholderInput where
  name : String
  power : ℚ
  urgency : ℚ
  legitimacy : ℚ
  position : ℚ
  influenced_by : Option (List String)
deriving DecidableEq

/-- One entry of `stakeholder_priorities` built by `api_analyze_stakeholders`
(lines 427-437). -/
structure HttpSRecord where
  name : String
  power : ℚ
  urgency : ℚ
  legitimacy : ℚ
  position : ℚ
  salience_score : ℚ
  priority_level : String
  influenced_by : List String
  engagement_strategy : String
deriving DecidableEq

/-- Python's bankers rounding to an integer (`round(y)`), used exactly on
rationals here. -/
def roundHalfEven (y : ℚ) : ℤ :=
  let f := ⌊y⌋
  let r := y - f
  if r < mkRat 1 2 then f
  else if mkRat 1 2 < r then f + 1
  else if f % 2 = 0 then f else f + 1

/-- Python `round(x, 2)` over the exact rational value. -/
def pyRound2 (x : ℚ) : ℚ := mkRat (roundHalfEven (x * 100)) 100

/-- The per-stakeholder body of `api_analyze_stakeholders` (lines 416-437):
salience sum, salience-threshold priority level, and the position-derived
`engagement_strategy` label. -/
def httpClassifyOne (sh : StakeholderInput) : HttpSRecord :=
  let salience := sh.power + sh.urgency + sh.legitimacy
  let priority :=
    if salience ≥ 2 then "First"
    else if salience ≥ 1 then "Second"
    else "Third"
  { name := sh.name
    power := sh.power
    urgency := sh.urgency
    legitimacy := sh.legitimacy
    position := sh.position
    salience_score := pyRound2 salience
    priority_level := priority
    influenced_by := sh.influenced_by.getD []
    engagement_strategy :=
      if sh.position > mkRat 1 2 then "Supportive"
      else if sh.position > mkRat (-1) 2 then "Neutral"
      else "Adversarial" }

/-- `priority_order` lookup (line 440); the records built by this endpoint
only ever carry the three listed levels, so the Python `KeyError` branch is
unreachable and the final `else` stands for the `"Third"` key. -/
def priorityOrder (s : String) : ℕ :=
  if s == "First" then 1 else if s == "Second" then 2 else 3

/-- Strict "comes before" order of the ascending stable sort at line 441:
`key=lambda x: (priority_order[x["priority_level"]], -x["salience_score"])`. -/
def httpSortRel (a b : HttpSRecord) : Prop :=
  priorityOrder a.priority_level < priorityOrder b.priority_level
    ∨ (priorityOrder a.priority_level = priorityOrder b.priority_level
        ∧ b.salience_score < a.salience_score)

instance : DecidableRel httpSortRel := fun a b => by
  unfold httpSortRel
  infer_instance

/-- The machine-readable part of the `api_analyze_stakeholders` response
(lines 443-458); the fixed `key_insights` strings are template content and
not modelled. -/
structure HttpAnalyzeResult where
  total_stakeholders : ℕ
  stakeholders : List HttpSRecord
  first_priority : List String
  second_priority : List String
  third_priority : List String
deriving DecidableEq

/-- `api_analyze_stakeholders` (lines 405-470): classify, sort ascending by
(priority rank, negated salience) — Python's stable `list.sort` — and group
names by priority level. -/
def api_analyze_stakeholders (request_stakeholders : List StakeholderInput) :
    HttpAnalyzeResult :=
  let prios := request_stakeholders.map httpClassifyOne
  let sorted := pySortDesc httpSortRel prios
  { total_stakeholders := request_stakeholders.length
    stakeholders := sorted
    first_priority := (sorted.filter (fun s => s.priority_level == "First")).map
      (fun s => s.name)
    second_priority := (sorted.filter (fun s => s.priority_level == "Second")).map
      (fun s => s.name)
    third_priority := (sorted.filter (fun s => s.priority_level == "Third")).map
      (fun s => s.name) }

/-! ## Influence-leverage endpoint of the REST wrapper -/

/-- A record of the `stakeholders` array inside `stakeholders_analysis_json`
as read by `api_leverage_influence`; each field may be absent from the JSON
object, and `none` models an absent key (a JSON `null` value, which `.get`
also returns but which bracket indexing tolerates, is not modelled; no claim
involves null-valued fields). -/
structure HttpAnalysisRecord where
  name : Option String
  power : Option ℚ
  urgency : Option ℚ
  legitimacy : Option ℚ
  position : Option ℚ
  priority_level : Option String
  influenced_by : Option (List String)
deriving DecidableEq

/-- The target-search loop at lines 482-487: `sh.get("name") ==
request.target_stakeholder_name`; a missing name never matches (Python
`None == str` is `False`), and the comparison is exact (case-sensitive). -/
def httpFindTarget (q : String) : List HttpAnalysisRecord → Option HttpAnalysisRecord
  | [] => none
  | sh :: rest =>
    if (match sh.name with | some n => n == q | none => false) then some sh
    else httpFindTarget q rest

/-- The envelope of `api_leverage_influence` restricted to the fields the
claims are about.  The error string of the not-found branch interpolates the
target name; we record only which branch was taken. -/
structure HttpLevResponse where
  success : Bool
  message : String
  target_stakeholder : Option String
deriving DecidableEq

/-- `api_leverage_influence` (lines 472-556).  The whole body sits inside
`try/except Exception` returning the uniform failure envelope, so the
endpoint is a total function.  The target search (lines 482-487), the
not-found branch (lines 489-494) and the target-profile reads all use
defaulted `.get`, but the allies display at line 519 reads `a["name"]` with
bracket indexing over `allies[:3]`, where `allies` (line 497) are the
records with `position > 0.5` whose name differs from the target: if one of
the first three allies lacks a `name` key, the comprehension raises
`KeyError`, which the catch-all (line 551) converts into the failure
envelope with message "Failed to develop tactics".  (`opponents` at line 498
is computed from defaulted `.get`s and never read, so it cannot raise.)  The
remaining tactical-options payload is template content keyed off the found
record and is not modelled. -/
def api_leverage_influence (q : String)
    (analysis_stakeholders : Option (List HttpAnalysisRecord)) : HttpLevResponse :=
  let stakeholders := analysis_stakeholders.getD []
  match httpFindTarget q stakeholders with
  | none =>
    { success := false
      message := "Stakeholder not found"
      target_stakeholder := none }
  | some _ =>
    let allies := stakeholders.filter
      (fun s => decide (s.position.getD 0 > mkRat 1 2) && s.name != some q)
    if ((allies.take 3).all fun a => a.name.isSome) then
      { success := true
        message := "Influence tactics developed successfully"
        target_stakeholder := some q }
    else
      { success := false
        message := "Failed to develop tactics"
        target_stakeholder := none }

/-- JSON round trip of one `api_analyze_stakeholders` output row into the
leverage endpoint: every field the endpoint reads is present. -/
def httpRecordOfAnalyzed (r : HttpSRecord) : HttpAnalysisRecord :=
  { name := some r.name
    power := some r.power
    urgency := some r.urgency
    legitimacy := some r.legitimacy
    position := some r.position
    priority_level := some r.priority_level
    influenced_by := some r.influenced_by }

/-! ## Influence-leverage tool of the tool server -/

/-- A record of `all_stakeholders` inside the parsed
`stakeholder_analysis_data` blob.  `influence_connections` is read with
bracket indexing at line 1129, so a missing key raises `KeyError`; we model
it as `Option`.  The remaining fields are also bracket-indexed, but only
these two missing-field shapes are needed by the claims. -/
structure MCPTargetRec where
  name : String
  role : String
  stance : String
  priority : String
  power : ℚ
  urgency : ℚ
  legitimacy : ℚ
  influence_connections : Option (List String)
deriving DecidableEq

/-- The parsed `stakeholder_analysis_data` JSON object;
`analysis_data['all_stakeholders']` (line 1118) raises `KeyError` when the
key is absent, so the field is an `Option`. -/
structure MCPAnalysisData where
  all_stakeholders : Option (List MCPTargetRec)
deriving DecidableEq

/-- The `stakeholder_analysis_data` string as seen by `json.loads`: either it
fails to parse (`JSONDecodeError`) or yields a JSON object. -/
inductive Blob
  | unparsable
  | parsed (d : MCPAnalysisData)
deriving DecidableEq

/-- Python `str.lower()`, character-wise (the names in play are ASCII, where
CPython lowercases exactly per character). -/
def pyLower (s : String) : String := ⟨s.data.map Char.toLower⟩

/-- The target-search loop of `_generate_influence_tactics` (lines 1117-1121):
case-insensitive comparison via `.lower()`. -/
def findTargetMCP (q : String) : List MCPTargetRec → Option MCPTargetRec
  | [] => none
  | sh :: rest =>
    if pyLower sh.name == pyLower q then some sh
    else findTargetMCP q rest

/-- The influencer-collection loop (lines 1127-1130):
`if target['name'] in sh['influence_connections']`.  Returns `none` when any
record lacks `influence_connections` (Python raises `KeyError` there). -/
def collectInfluencers (tname : String) : List MCPTargetRec → Option (List MCPTargetRec)
  | [] => some []
  | sh :: rest =>
    match sh.influence_connections with
    | none => none
    | some conns =>
      match collectInfluencers tname rest with
      | none => none
      | some l => some (if tname ∈ conns then sh :: l else l)

/-- The data-bearing part of the tactics dictionary built by
`_generate_influence_tactics` (lines 1132-1207); the pathway/coalition prose
around these lists is template content. -/
structure InfluenceTactics where
  target_name : String
  role : String
  current_stance : String
  priority : String
  supportive_influencers : List String
  neutral_influencers : List String
  opposed_influencers : List String
deriving DecidableEq

/-- Outcome of one `leverage_stakeholder_influence` tool call as observed by
the caller: a tactics payload, one of the two typed error strings (lines
1092 and 1101), or an exception escaping the tool uncaught. -/
inductive MCPLevResult
  | ok (t : InfluenceTactics)
  | invalidJsonMessage
  | notFoundMessage
  | raised
deriving DecidableEq

/-- `leverage_stakeholder_influence` (lines 1051-1107) together with
`_generate_influence_tactics` (lines 1110-1209).  Only `json.JSONDecodeError`
is caught (line 1091); a parsed blob without `all_stakeholders`, or with a
record lacking `influence_connections`, raises `KeyError`, which no caller in
this module catches — modelled as `.raised`. -/
def leverage_stakeholder_influence (blob : Blob) (q : String) : MCPLevResult :=
  match blob with
  | .unparsable => .invalidJsonMessage
  | .parsed d =>
    match d.all_stakeholders with
    | none => .raised
    | some shs =>
      match findTargetMCP q shs with
      | none => .notFoundMessage
      | some target =>
        match collectInfluencers target.name shs with
        | none => .raised
        | some influencers =>
          .ok
            { target_name := target.name
              role := target.role
              current_stance := target.stance
              priority := target.priority
              supportive_influencers :=
                (influencers.filter (fun i => i.stance == "Supportive")).map
                  (fun i => i.name)
              neutral_influencers :=
                (influencers.filter (fun i => i.stance == "Neutral")).map
                  (fun i => i.name)
              opposed_influencers :=
                (influencers.filter (fun i => i.stance == "Opposed")).map
                  (fun i => i.name) }

/-- Serialization of one `all_stakeholders` record of the stakeholder
analysis into the parsed-JSON shape read back by the leverage tool: every
field, `influence_connections` included, is present in the tool's own
output. -/
def toParsedRecord (s : SAnalysis) : MCPTargetRec :=
  { name := s.name
    role := s.role
    stance := s.stance
    priority := s.priority
    power := s.power
    urgency := s.urgency
    legitimacy := s.legitimacy
    influence_connections := some s.influence_connections }

/-- JSON round trip of a whole stakeholder-analysis output into the leverage
tool. -/
def landscapeToData (L : Landscape) : MCPAnalysisData :=
  ⟨some (L.all_stakeholders.map toParsedRecord)⟩

/-! ## Iceberg analysis -/

/-- Python `list(set(a) & set(b))` over string lists, embedded as
membership-filtering the deduplicated first list.  A Python set iterates in
an unspecified (hash seed dependent) order; every property proved below is
invariant under reordering, and emptiness/membership coincide exactly. -/
def pySetIntersect (a b : List String) : List String :=
  a.dedup.filter (fun x => b.contains x)

/-- The computed (non-template) part of the `api_analyze_icebergs` response
(lines 348-391): the three literal overlaps with their fixed fallback
phrases, and the `identified` flag. -/
structure IcebergResult where
  common_ground : List String
  aligned_reasoning : List String
  shared_values : List String
  identified : Bool
deriving DecidableEq

/-- `api_analyze_icebergs` (lines 340-403), computed part. -/
def api_analyze_icebergs (org_positions cp_positions org_reasoning : List String)
    (cp_reasoning : Option (List String)) (org_motives : List String)
    (cp_motives : Option (List String)) : IcebergResult :=
  let common_positions := pySetIntersect org_positions cp_positions
  let common_reasoning := pySetIntersect org_reasoning (cp_reasoning.getD [])
  let common_motives := pySetIntersect org_motives (cp_motives.getD [])
  { common_ground :=
      if common_positions.isEmpty then
        ["Seek to resolve the conflict", "Both parties desire stability"]
      else common_positions
    aligned_reasoning :=
      if common_reasoning.isEmpty then
        ["Need for productive dialogue", "Importance of mutual benefit"]
      else common_reasoning
    shared_values :=
      if common_motives.isEmpty then
        ["Long-term cooperation", "Sustainable peace"]
      else common_motives
    identified :=
      !common_positions.isEmpty || !common_reasoning.isEmpty
        || !common_motives.isEmpty }

/-- The `common_shared_space` dictionary of the tool server. -/
structure CommonSpace where
  shared_values : List String
  complementary_reasoning : List String
  potential_aligned_positions : List String
deriving DecidableEq

/-- `_identify_common_space` of the tool server (lines 480-508): a fixed
template dictionary; none of the six list arguments is consulted. -/
def identify_common_space (org_pos org_reas org_mot cp_pos cp_reas cp_mot : List String) :
    CommonSpace :=
  { shared_values :=
      ["Both parties recognize the severity of the humanitarian situation",
       "Both seek to avoid international criticism and reputational damage",
       "Both want efficient use of available resources",
       "Both prefer orderly, predictable operational frameworks"]
    complementary_reasoning :=
      ["Coordination can satisfy both access needs and control requirements",
       "Clear protocols can provide both flexibility and oversight",
       "Joint planning can address both humanitarian and security concerns",
       "Phased approaches can build trust while maintaining progress"]
    potential_aligned_positions :=
      ["Establish joint coordination mechanism with defined parameters",
       "Create tiered access system based on zone security assessments",
       "Develop shared reporting framework for transparency",
       "Implement pilot program in less contested areas first"] }

/-! ## Helper lemmas -/

theorem highAttrs_le_three (sh : StakeholderInfo) : highAttrs sh ≤ 3 := by
  unfold highAttrs
  split_ifs <;> omega

theorem analyzeOne_name (sh : StakeholderInfo) : (analyzeOne sh).name = sh.name := rfl

theorem analyzeOne_conns (sh : StakeholderInfo) :
    (analyzeOne sh).influence_connections = sh.influence_connections.getD [] := rfl

theorem dictSet_of_not_mem {m : List (String × List String)} {k : String}
    {v : List String} (h : ∀ p ∈ m, p.1 ≠ k) : dictSet m k v = m ++ [(k, v)] := by
  rw [dictSet, if_neg]
  intro hc
  rw [List.any_eq_true] at hc
  obtain ⟨p, hp, hpk⟩ := hc
  exact h p hp (by simpa using hpk)

theorem foldl_dictSet_eq :
    ∀ (l : List SAnalysis) (m : List (String × List String)),
      (l.map (fun s => s.name)).Nodup →
      (∀ s ∈ l, ∀ p ∈ m, p.1 ≠ s.name) →
      l.foldl (fun acc sh => dictSet acc sh.name sh.influence_connections) m
        = m ++ l.map (fun s => (s.name, s.influence_connections))
  | [], m, _, _ => by simp
  | s :: t, m, hn, hm => by
    rw [List.map_cons, List.nodup_cons] at hn
    obtain ⟨hs, ht⟩ := hn
    have h1 : dictSet m s.name s.influence_connections
        = m ++ [(s.name, s.influence_connections)] :=
      dictSet_of_not_mem (fun p hp => hm s (List.mem_cons_self s t) p hp)
    have h2 : (s :: t).foldl (fun acc sh => dictSet acc sh.name sh.influence_connections) m
        = t.foldl (fun acc sh => dictSet acc sh.name sh.influence_connections)
            (dictSet m s.name s.influence_connections) := rfl
    rw [h2, h1, foldl_dictSet_eq t (m ++ [(s.name, s.influence_connections)]) ht ?_]
    · simp
    · intro s' hs' p hp
      rcases List.mem_append.mp hp with hp | hp
      · exact hm s' (List.mem_cons_of_mem s hs') p hp
      · have hps : p = (s.name, s.influence_connections) := by simpa using hp
        rw [hps]
        intro hcon
        apply hs
        have hcon2 : s.name = s'.name := hcon
        rw [hcon2]
        exact List.mem_map_of_mem (fun x => x.name) hs' 

theorem influenceMap_eq_of_nodup {l : List SAnalysis}
    (hn : (l.map (fun s => s.name)).Nodup) :
    influenceMap l = l.map (fun s => (s.name, s.influence_connections)) := by
  simpa using foldl_dictSet_eq l [] hn (by simp)

theorem keys_dictAppend (m : List (String × List String)) (k : String) (v g : String) :
    g ∈ (dictAppend m k v).map Prod.fst ↔ g = k ∨ g ∈ m.map Prod.fst := by
  rw [dictAppend]
  by_cases hc : m.any (fun p => p.1 == k) = true
  · rw [if_pos hc]
    have hmap : (m.map (fun p => if p.1 == k then (p.1, p.2 ++ [v]) else p)).map Prod.fst
        = m.map Prod.fst := by
      rw [List.map_map]
      refine List.map_congr_left ?_
      intro p _
      by_cases hpk : p.1 = k
      · simp [hpk]
      · simp [hpk]
    rw [hmap]
    constructor
    · exact Or.inr
    · intro h
      rcases h with h | h
      · subst h
        rw [List.any_eq_true] at hc
        obtain ⟨p, hp, hpk⟩ := hc
        have : p.1 = g := by simpa using hpk
        exact this ▸ List.mem_map_of_mem Prod.fst hp
      · exact h
  · rw [if_neg hc]
    simp [or_comm]

theorem keys_foldl_dictAppend_inner (n : String) :
    ∀ (conns : List String) (m : List (String × List String)) (g : String),
      g ∈ (conns.foldl (fun m' inf => dictAppend m' inf n) m).map Prod.fst
        ↔ g ∈ m.map Prod.fst ∨ g ∈ conns
  | [], m, g => by simp
  | c :: t, m, g => by
    have h2 : ((c :: t).foldl (fun m' inf => dictAppend m' inf n) m)
        = t.foldl (fun m' inf => dictAppend m' inf n) (dictAppend m c n) := rfl
    rw [h2, keys_foldl_dictAppend_inner n t (dictAppend m c n) g, keys_dictAppend]
    simp only [List.mem_cons]
    tauto

theorem keys_foldl_dictAppend_outer :
    ∀ (l : List SAnalysis) (m : List (String × List String)) (g : String),
      g ∈ (l.foldl
          (fun m' sh => sh.influence_connections.foldl
            (fun m'' inf => dictAppend m'' inf sh.name) m') m).map Prod.fst
        ↔ g ∈ m.map Prod.fst ∨ ∃ r ∈ l, g ∈ r.influence_connections
  | [], m, g => by simp
  | s :: t, m, g => by
    have h2 : ((s :: t).foldl
          (fun m' sh => sh.influence_connections.foldl
            (fun m'' inf => dictAppend m'' inf sh.name) m') m)
        = t.foldl
            (fun m' sh => sh.influence_connections.foldl
              (fun m'' inf => dictAppend m'' inf sh.name) m')
            (s.influence_connections.foldl (fun m'' inf => dictAppend m'' inf s.name) m) := rfl
    rw [h2, keys_foldl_dictAppend_outer t _ g, keys_foldl_dictAppend_inner]
    constructor
    · rintro ((h | h) | ⟨r, hr, hg⟩)
      · exact Or.inl h
      · exact Or.inr ⟨s, List.mem_cons_self s t, h⟩
      · exact Or.inr ⟨r, List.mem_cons_of_mem s hr, hg⟩
    · rintro (h | ⟨r, hr, hg⟩)
      · exact Or.inl (Or.inl h)
      · rcases List.mem_cons.mp hr with h | h
        · exact Or.inl (Or.inr (h ▸ hg))
        · exact Or.inr ⟨r, h, hg⟩

theorem mem_keys_influencedBy (l : List SAnalysis) (g : String) :
    g ∈ (influencedBy l).map Prod.fst ↔ ∃ r ∈ l, g ∈ r.influence_connections := by
  rw [influencedBy]
  simpa using keys_foldl_dictAppend_outer l [] g

theorem findTargetMCP_eq_none_iff (q : String) :
    ∀ l : List MCPTargetRec,
      findTargetMCP q l = none ↔ ∀ s ∈ l, pyLower s.name ≠ pyLower q
  | [] => by simp [findTargetMCP]
  | sh :: t => by
    rw [findTargetMCP]
    by_cases hc : pyLower sh.name == pyLower q
    · rw [if_pos hc]
      constructor
      · intro habs
        exact absurd habs (by simp)
      · intro h
        exact absurd (by simpa using hc) (h sh (List.mem_cons_self sh t))
    · rw [if_neg hc]
      rw [findTargetMCP_eq_none_iff q t]
      constructor
      · intro h s hs
        rcases List.mem_cons.mp hs with hs | hs
        · exact hs ▸ (by simpa using hc)
        · exact h s hs
      · intro h s hs
        exact h s (List.mem_cons_of_mem sh hs)

theorem collectInfluencers_isSome (tname : String) :
    ∀ l : List MCPTargetRec,
      (∀ s ∈ l, s.influence_connections ≠ none) →
      (collectInfluencers tname l).isSome = true
  | [], _ => by simp [collectInfluencers]
  | sh :: t, h => by
    rw [collectInfluencers]
    rcases hc : sh.influence_connections with _ | conns
    · exact absurd hc (h sh (List.mem_cons_self sh t))
    · have ht := collectInfluencers_isSome tname t
        (fun s hs => h s (List.mem_cons_of_mem sh hs))
      rcases hrec : collectInfluencers tname t with _ | l'
      · rw [hrec] at ht
        simp at ht
      · simp

theorem httpFindTarget_eq_none_iff (q : String) :
    ∀ l : List HttpAnalysisRecord,
      httpFindTarget q l = none ↔ ∀ s ∈ l, s.name ≠ some q
  | [] => by simp [httpFindTarget]
  | sh :: t => by
    rw [httpFindTarget]
    rcases hn : sh.name with _ | n
    · rw [if_neg (by simp)]
      rw [httpFindTarget_eq_none_iff q t]
      constructor
      · intro h s hs
        rcases List.mem_cons.mp hs with hs | hs
        · rw [hs, hn]
          simp
        · exact h s hs
      · intro h s hs
        exact h s (List.mem_cons_of_mem sh hs)
    · by_cases hc : n == q
      · rw [if_pos (by simpa using hc)]
        simp only [reduceCtorEq, false_iff, not_forall]
        refine ⟨sh, List.mem_cons_self sh t, ?_⟩
        rw [hn]
        simpa using hc
      · rw [if_neg (by simpa using hc)]
        rw [httpFindTarget_eq_none_iff q t]
        constructor
        · intro h s hs
          rcases List.mem_cons.mp hs with hs | hs
          · rw [hs, hn]
            simpa using hc
          · exact h s hs
        · intro h s hs
          exact h s (List.mem_cons_of_mem sh hs)

theorem take_filter_all_isSome {l : List HttpAnalysisRecord}
    (h : ∀ s ∈ l, s.name.isSome = true) (f : HttpAnalysisRecord → Bool) (n : ℕ) :
    (((l.filter f).take n).all fun a => a.name.isSome) = true := by
  rw [List.all_eq_true]
  intro a ha
  exact h a (List.mem_of_mem_filter (List.take_subset n (l.filter f) ha))

/-! ## Claims -/

/-- Claim C1, counterexample.  The claim asserts that on the HTTP
analyze-stakeholders endpoint, as on the tool server, `position = 0.5` yields
the label Supportive and `position = -0.5` yields Opposed.  In fact the
endpoint's position-derived label (its `engagement_strategy` field) uses the
strict bound `position > 0.5` and the label "Adversarial": at `position =
0.5` it produces "Neutral", and at `position = -0.5` it produces
"Adversarial". -/
theorem spec2_c1_counterexample :
    (httpClassifyOne ⟨"Ministry", 1, 1, 1, mkRat 1 2, none⟩).engagement_strategy
        = "Neutral"
    ∧ (httpClassifyOne ⟨"Ministry", 1, 1, 1, mkRat (-1) 2, none⟩).engagement_strategy
        = "Adversarial"
    ∧ "Neutral" ≠ "Supportive"
    ∧ "Adversarial" ≠ "Opposed" := by
  refine ⟨?_, ?_, by decide, by decide⟩
  · with_unfolding_all decide
  · with_unfolding_all decide

/-- Claim C1, amended.  On the stakeholder-analysis tool the stance label is
Supportive exactly when `position ≥ 0.5`, Opposed exactly when
`position ≤ -0.5`, Neutral otherwise (so 0.5 → Supportive, 0.49999 → Neutral,
-0.5 → Opposed).  The HTTP analyze-stakeholders endpoint instead labels its
position-derived field Supportive exactly when `position > 0.5` (strict),
Adversarial exactly when `position ≤ -0.5`, and Neutral otherwise, so
`position = 0.5` yields Neutral and `position = -0.5` yields Adversarial
there. -/
theorem spec2_c1_amended :
    (∀ sh : StakeholderInfo,
      ((analyzeOne sh).stance = "Supportive" ↔ sh.position ≥ mkRat 1 2)
      ∧ ((analyzeOne sh).stance = "Opposed" ↔ sh.position ≤ mkRat (-1) 2)
      ∧ ((analyzeOne sh).stance = "Neutral"
          ↔ (mkRat (-1) 2 < sh.position ∧ sh.position < mkRat 1 2)))
    ∧ (∀ sh : StakeholderInput,
      ((httpClassifyOne sh).engagement_strategy = "Supportive"
          ↔ sh.position > mkRat 1 2)
      ∧ ((httpClassifyOne sh).engagement_strategy = "Adversarial"
          ↔ sh.position ≤ mkRat (-1) 2)
      ∧ ((httpClassifyOne sh).engagement_strategy = "Neutral"
          ↔ (mkRat (-1) 2 < sh.position ∧ sh.position ≤ mkRat 1 2)))
    ∧ stanceOf (mkRat 1 2) = "Supportive"
    ∧ stanceOf (mkRat 49999 100000) = "Neutral"
    ∧ stanceOf (mkRat (-1) 2) = "Opposed" := by
  have hlt : mkRat (-1) 2 < mkRat 1 2 := by decide
  refine ⟨fun sh => ?_, fun sh => ?_, by decide, by decide, by decide⟩
  · show (stanceOf sh.position = "Supportive" ↔ _)
      ∧ (stanceOf sh.position = "Opposed" ↔ _)
      ∧ (stanceOf sh.position = "Neutral" ↔ _)
    unfold stanceOf
    split_ifs with h1 h2
    · exact ⟨iff_of_true rfl h1,
        iff_of_false (by decide) (fun hp => by simp at h1; linarith),
        iff_of_false (by decide) (fun hp => by simp at h1; linarith [hp.2])⟩
    · exact ⟨iff_of_false (by decide) h1,
        iff_of_true rfl h2,
        iff_of_false (by decide) (fun hp => by linarith [hp.1])⟩
    · exact ⟨iff_of_false (by decide) h1,
        iff_of_false (by decide) h2,
        iff_of_true rfl ⟨not_le.mp h2, not_le.mp (fun hc => h1 hc)⟩⟩
  · simp only [httpClassifyOne]
    split_ifs with h1 h2
    · exact ⟨iff_of_true rfl h1,
        iff_of_false (by decide) (fun hp => by linarith),
        iff_of_false (by decide) (fun hp => by linarith [hp.2])⟩
    · exact ⟨iff_of_false (by decide) h1,
        iff_of_false (by decide) (fun hp => by linarith),
        iff_of_true rfl ⟨h2, not_lt.mp h1⟩⟩
    · exact ⟨iff_of_false (by decide) (fun hp => h1 (by linarith)),
        iff_of_true rfl (not_lt.mp h2),
        iff_of_false (by decide) (fun hp => h2 hp.1)⟩

/-- Claim C2, confirmed.  In the stakeholder-analysis tool, with `h` the
count of attributes among power, urgency, legitimacy that are `≥ 0.7`:
`h = 3` yields "First Priority" with the active-engagement strategy, `h = 2`
yields "Second Priority" with the selective-engagement strategy, and `h ≤ 1`
yields "Third Priority" with the minimal-engagement strategy; the classifier
is a total function (every record gets exactly one of the three tiers). -/
theorem spec2_c2 (sh : StakeholderInfo) :
    highAttrs sh ≤ 3
    ∧ ((analyzeOne sh).priority = "First Priority" ↔ highAttrs sh = 3)
    ∧ ((analyzeOne sh).engagement_strategy = "Actively engage and manage opposition"
        ↔ highAttrs sh = 3)
    ∧ ((analyzeOne sh).priority = "Second Priority" ↔ highAttrs sh = 2)
    ∧ ((analyzeOne sh).engagement_strategy
          = "Selective engagement - leverage allies, monitor risks"
        ↔ highAttrs sh = 2)
    ∧ ((analyzeOne sh).priority = "Third Priority" ↔ highAttrs sh ≤ 1)
    ∧ ((analyzeOne sh).engagement_strategy
          = "Minimal engagement unless influence increases"
        ↔ highAttrs sh ≤ 1) := by
  have h3 := highAttrs_le_three sh
  refine ⟨h3, ?_⟩
  simp only [analyzeOne]
  have hcases : highAttrs sh = 0 ∨ highAttrs sh = 1 ∨ highAttrs sh = 2 ∨ highAttrs sh = 3 := by
    omega
  rcases hcases with e | e | e | e <;> rw [e] <;> decide

/-- Claim C3, confirmed.  On the HTTP analyze-stakeholders endpoint, with
`salience = power + urgency + legitimacy`: `salience ≥ 2` yields priority
"First", `1 ≤ salience < 2` yields "Second", `salience < 1` yields "Third";
and the salience-sum scheme is not equivalent to the tool server's
count-of-high-attributes scheme — at the in-range input
power = 1, urgency = 1, legitimacy = 0 the endpoint assigns tier First while
the tool assigns tier Second. -/
theorem spec2_c3 :
    (∀ sh : StakeholderInput,
      ((httpClassifyOne sh).priority_level = "First"
          ↔ sh.power + sh.urgency + sh.legitimacy ≥ 2)
      ∧ ((httpClassifyOne sh).priority_level = "Second"
          ↔ (1 ≤ sh.power + sh.urgency + sh.legitimacy
              ∧ sh.power + sh.urgency + sh.legitimacy < 2))
      ∧ ((httpClassifyOne sh).priority_level = "Third"
          ↔ sh.power + sh.urgency + sh.legitimacy < 1))
    ∧ (httpClassifyOne ⟨"Donor", 1, 1, 0, 0, none⟩).priority_level = "First"
    ∧ (analyzeOne ⟨"Donor", 1, 1, 0, 0, none, none⟩).priority = "Second Priority"
    ∧ highAttrs ⟨"Donor", 1, 1, 0, 0, none, none⟩ = 2
    ∧ ((0:ℚ) ≤ 1 ∧ (1:ℚ) ≤ 1 ∧ (0:ℚ) ≤ 0 ∧ (0:ℚ) ≤ 1) := by
  refine ⟨fun sh => ?_, ?_, by decide, by decide, by decide⟩
  · simp only [httpClassifyOne]
    split_ifs with g2 g1
    · exact ⟨iff_of_true rfl g2,
        iff_of_false (by decide) (fun hp => by linarith [hp.2]),
        iff_of_false (by decide) (fun hp => by linarith)⟩
    · exact ⟨iff_of_false (by decide) g2,
        iff_of_true rfl ⟨g1, not_le.mp g2⟩,
        iff_of_false (by decide) (fun hp => by linarith)⟩
    · exact ⟨iff_of_false (by decide) g2,
        iff_of_false (by decide) (fun hp => g1 hp.1),
        iff_of_true rfl (not_le.mp g1)⟩
  · with_unfolding_all decide

/-- Claim C4, confirmed.  For every valid batch (the spec's batch invariant
makes record names unique, hypothesis `hn`), the relationship analysis's
`total_connections` equals the sum over all records of the length of that
record's `influences` list (duplicates in a list counted), which also equals
the sum of the per-record out-degrees (the counts behind the
`influences_count` values). -/
theorem spec2_c4 (batch : List StakeholderInfo)
    (hn : (batch.map (fun sh => sh.name)).Nodup) :
    (analyze_stakeholder_landscape batch).relationship_analysis.total_connections
      = (batch.map (fun sh => (sh.influence_connections.getD []).length)).sum
    ∧ (analyze_stakeholder_landscape batch).relationship_analysis.total_connections
      = ((connectorEntries (pySortDesc recGt (batch.map analyzeOne))).map Prod.snd).sum := by
  have hperm : List.Perm (pySortDesc recGt (batch.map analyzeOne)) (batch.map analyzeOne) :=
    pySortDesc_perm recGt (batch.map analyzeOne)
  have hnames : ((batch.map analyzeOne).map (fun s => s.name))
      = batch.map (fun sh => sh.name) := by
    rw [List.map_map]
    rfl
  have hn2 : ((pySortDesc recGt (batch.map analyzeOne)).map (fun s => s.name)).Nodup := by
    refine ((hperm.map (fun s => s.name)).nodup_iff).mpr ?_
    rw [hnames]
    exact hn
  have hmap := influenceMap_eq_of_nodup hn2
  have htot : (analyze_stakeholder_landscape batch).relationship_analysis.total_connections
      = ((influenceMap (pySortDesc recGt (batch.map analyzeOne))).map
          (fun p => p.2.length)).sum := rfl
  constructor
  · rw [htot, hmap, List.map_map]
    have hstep : ((pySortDesc recGt (batch.map analyzeOne)).map
          ((fun p : String × List String => p.2.length) ∘ fun s => (s.name, s.influence_connections))).sum
        = ((batch.map analyzeOne).map
            ((fun p : String × List String => p.2.length) ∘ fun s => (s.name, s.influence_connections))).sum :=
      (hperm.map _).sum_eq
    rw [hstep, List.map_map]
    rfl
  · rw [htot]
    rw [connectorEntries, List.map_map]
    rfl

def c4batch : List StakeholderInfo :=
  [⟨"Aa", mkRat 8 10, mkRat 8 10, mkRat 8 10, mkRat 9 10, none, some ["Bb", "Gg"]⟩,
   ⟨"Bb", mkRat 2 10, mkRat 2 10, mkRat 2 10, mkRat (-7) 10, none, some ["Bb"]⟩]

/-- Claim C4, witness: a concrete two-record batch with distinct names on
which the proved equalities evaluate. -/
theorem spec2_c4_witness :
    (c4batch.map (fun sh => sh.name)).Nodup
    ∧ ((analyze_stakeholder_landscape c4batch).relationship_analysis.total_connections
        = (c4batch.map (fun sh => (sh.influence_connections.getD []).length)).sum
      ∧ (analyze_stakeholder_landscape c4batch).relationship_analysis.total_connections
        = ((connectorEntries (pySortDesc recGt (c4batch.map analyzeOne))).map Prod.snd).sum) :=
  ⟨by decide, spec2_c4 c4batch (by decide)⟩

def c5batch : List StakeholderInfo :=
  [⟨"Aa", 0, 0, 0, 0, none, some ["Xx"]⟩,
   ⟨"Bb", mkRat 9 10, 0, 0, 0, none, some ["Yy"]⟩]

/-- Claim C5, counterexample.  The claim requires ties between equal
out-degrees to be broken by the records' original batch order.  In
`c5batch`, records "Aa" then "Bb" both have out-degree 1, so the claim
predicts `key_connectors = [("Aa", 1), ("Bb", 1)]`; the code instead sorts
stakeholders by (priority score, power) descending before building the
influence map, so "Bb" (priority score 1) precedes "Aa" (score 0) and
the tie is broken in that order. -/
theorem spec2_c5_counterexample :
    (analyze_stakeholder_landscape c5batch).relationship_analysis.key_connectors
      = [("Bb", 1), ("Aa", 1)]
    ∧ [(("Bb":String), (1:ℕ)), ("Aa", 1)] ≠ [("Aa", 1), ("Bb", 1)]
    ∧ c5batch.map (fun sh => sh.name) = ["Aa", "Bb"]
    ∧ c5batch.map (fun sh => (sh.influence_connections.getD []).length) = [1, 1] := by
  refine ⟨by decide, by decide, by decide, by decide⟩

/-- Claim C5, amended.  `key_connectors` is the 5-element prefix of the list
of (name, out-degree) pairs sorted by out-degree descending; the sorted list
is a permutation of the influence-map entries, is non-increasing in the
count, and ties between equal counts are broken stably by the entries'
order — which is the first-occurrence order of names in the
priority-sorted stakeholder list (priority score then power, descending),
not the original batch order. -/
theorem spec2_c5_amended (batch : List StakeholderInfo) :
    (analyze_stakeholder_landscape batch).relationship_analysis.key_connectors
      = (pySortDesc cntGt (connectorEntries (pySortDesc recGt (batch.map analyzeOne)))).take 5
    ∧ ∀ l : List SAnalysis,
        List.Perm (pySortDesc cntGt (connectorEntries l)) (connectorEntries l)
        ∧ (pySortDesc cntGt (connectorEntries l)).Pairwise (fun a b => b.2 ≤ a.2)
        ∧ pySortDesc cntGt (connectorEntries l)
            = (pySortDesc (rFst cntGt) (indexFrom 0 (connectorEntries l))).map Prod.fst
        ∧ (pySortDesc (rFst cntGt) (indexFrom 0 (connectorEntries l))).Pairwise
            (fun p q => q.1.2 < p.1.2 ∨ (p.1.2 = q.1.2 ∧ p.2 < q.2)) := by
  refine ⟨rfl, fun l => ⟨pySortDesc_perm cntGt (connectorEntries l), ?_, ?_, ?_⟩⟩
  · refine (pySortDesc_pairwise cntGt cntGt_trans cntGt_asymm (connectorEntries l)).imp ?_
    intro a b hab
    unfold cntGt at hab
    omega
  · rw [pySortDesc_map_fst cntGt, indexFrom_map_fst]
  · refine (pySortDesc_stable cntGt cntGt_trans cntGt_negtrans (indexFrom 0 (connectorEntries l))
      (indexFrom_pairwise 0 (connectorEntries l))).imp ?_
    intro p q hpq
    rcases hpq with h | ⟨h1, h2, h3⟩
    · exact Or.inl h
    · refine Or.inr ⟨?_, h3⟩
      unfold cntGt at h1 h2
      omega

def c6batch : List StakeholderInfo :=
  [⟨"Aa", 0, 0, 0, 0, none, some ["Gg"]⟩,
   ⟨"Bb", 0, 0, 0, 0, none, some []⟩]

/-- Claim C6, confirmed.  A name occurring in some record's influences list
receives an entry in the `influenced_by` reverse-adjacency map whether or not
it matches a record of the batch (the general equivalence), so a ghost name
can appear among `key_influencers`; and a ghost reference still counts toward
the source record's out-degree.  In `c6batch`, "Gg" matches no record yet is
the sole key influencer, "Aa" keeps out-degree 1, and the ghost edge is
counted in `total_connections`. -/
theorem spec2_c6 :
    (∀ (l : List SAnalysis) (g : String),
      g ∈ (influencedBy l).map Prod.fst ↔ ∃ r ∈ l, g ∈ r.influence_connections)
    ∧ (analyze_stakeholder_landscape c6batch).relationship_analysis.key_influencers
        = [("Gg", 1)]
    ∧ "Gg" ∉ c6batch.map (fun sh => sh.name)
    ∧ (analyze_stakeholder_landscape c6batch).relationship_analysis.key_connectors
        = [("Aa", 1), ("Bb", 0)]
    ∧ (analyze_stakeholder_landscape c6batch).relationship_analysis.total_connections
        = 1 :=
  ⟨mem_keys_influencedBy, by decide, by decide, by decide, by decide⟩

theorem findTargetMCP_mem (q : String) :
    ∀ (l : List MCPTargetRec) (tg : MCPTargetRec), findTargetMCP q l = some tg →
      tg ∈ l ∧ pyLower tg.name = pyLower q
  | [], tg, h => by simp [findTargetMCP] at h
  | sh :: t, tg, h => by
    rw [findTargetMCP] at h
    by_cases hc : pyLower sh.name == pyLower q
    · rw [if_pos hc] at h
      have hsh := Option.some.inj h
      subst hsh
      exact ⟨List.mem_cons_self sh t, by simpa using hc⟩
    · rw [if_neg hc] at h
      obtain ⟨h1, h2⟩ := findTargetMCP_mem q t tg h
      exact ⟨List.mem_cons_of_mem sh h1, h2⟩

theorem httpFindTarget_mem (q : String) :
    ∀ (l : List HttpAnalysisRecord) (tg : HttpAnalysisRecord),
      httpFindTarget q l = some tg → tg ∈ l ∧ tg.name = some q
  | [], tg, h => by simp [httpFindTarget] at h
  | sh :: t, tg, h => by
    rw [httpFindTarget] at h
    rcases hn : sh.name with _ | n
    · rw [hn, if_neg (by simp)] at h
      obtain ⟨h1, h2⟩ := httpFindTarget_mem q t tg h
      exact ⟨List.mem_cons_of_mem sh h1, h2⟩
    · by_cases hc : n == q
      · rw [hn, if_pos (by simpa using hc)] at h
        have hsh := Option.some.inj h
        subst hsh
        refine ⟨List.mem_cons_self sh t, ?_⟩
        rw [hn]
        simpa using hc
      · rw [hn, if_neg (by simpa using hc)] at h
        obtain ⟨h1, h2⟩ := httpFindTarget_mem q t tg h
        exact ⟨List.mem_cons_of_mem sh h1, h2⟩

def c7batchH : List StakeholderInput :=
  [⟨"Aa", 1, 1, 1, 0, none⟩, ⟨"Bb", 0, 0, 0, 0, none⟩]

/-- Claim C7, counterexample.  The claim asserts case-insensitive target
lookup on both entry surfaces.  Feeding an `api_analyze_stakeholders` output
containing the name "Aa" back into the HTTP leverage endpoint with the
differently-cased target "AA" fails there: the endpoint compares names with
exact `==`. -/
theorem spec2_c7_counterexample :
    (api_analyze_stakeholders c7batchH).stakeholders.map (fun s => s.name) = ["Aa", "Bb"]
    ∧ pyLower "AA" = pyLower "Aa"
    ∧ (api_leverage_influence "AA"
        (some ((api_analyze_stakeholders c7batchH).stakeholders.map httpRecordOfAnalyzed))).success
      = false := by
  refine ⟨?_, by decide, ?_⟩
  · with_unfolding_all decide
  · with_unfolding_all decide

/-- Claim C7, amended.  Round-tripping a stakeholder-analysis output of the
tool server into its influence-leverage tool resolves a target exactly when
the query matches a stored name up to letter case (`.lower()` on both
sides), and then always returns a tactics payload.  The HTTP leverage
endpoint, by contrast, resolves its target by exact, case-sensitive string
equality against the stored names: a successful response implies an exactly
matching stored name, the typed not-found envelope is produced exactly when
no stored name matches exactly, and round-tripping an
`api_analyze_stakeholders` output (whose records all carry names) succeeds
exactly for the exact-case names it contains. -/
theorem spec2_c7_amended :
    (∀ (batch : List StakeholderInfo) (q : String),
      ((∃ s ∈ (analyze_stakeholder_landscape batch).all_stakeholders,
          pyLower s.name = pyLower q)
        ↔ ∃ t, leverage_stakeholder_influence
            (Blob.parsed (landscapeToData (analyze_stakeholder_landscape batch))) q
              = MCPLevResult.ok t))
    ∧ (∀ (q : String) (shs : List HttpAnalysisRecord),
        (api_leverage_influence q (some shs)).success = true → ∃ s ∈ shs, s.name = some q)
    ∧ (∀ (q : String) (shs : List HttpAnalysisRecord),
        ((api_leverage_influence q (some shs)).message = "Stakeholder not found"
          ↔ ¬ ∃ s ∈ shs, s.name = some q))
    ∧ (∀ (batchH : List StakeholderInput) (q : String),
        ((api_leverage_influence q
            (some ((api_analyze_stakeholders batchH).stakeholders.map
              httpRecordOfAnalyzed))).success = true
          ↔ ∃ s ∈ (api_analyze_stakeholders batchH).stakeholders, s.name = q)) := by
  refine ⟨?_, ?_, ?_, ?_⟩
  · intro batch q
    constructor
    · rintro ⟨s, hs, hlow⟩
      have hmem : toParsedRecord s
          ∈ (analyze_stakeholder_landscape batch).all_stakeholders.map toParsedRecord :=
        List.mem_map_of_mem toParsedRecord hs
      have hne : findTargetMCP q
          ((analyze_stakeholder_landscape batch).all_stakeholders.map toParsedRecord) ≠ none := by
        rw [Ne, findTargetMCP_eq_none_iff]
        intro hall
        exact hall (toParsedRecord s) hmem hlow
      rcases hft : findTargetMCP q
          ((analyze_stakeholder_landscape batch).all_stakeholders.map toParsedRecord)
        with _ | target
      · exact absurd hft hne
      · have hconns : ∀ s' ∈ (analyze_stakeholder_landscape batch).all_stakeholders.map
            toParsedRecord, s'.influence_connections ≠ none := by
          intro s' hs'
          rcases List.mem_map.mp hs' with ⟨s0, -, rfl⟩
          simp [toParsedRecord]
        have hcoll := collectInfluencers_isSome target.name _ hconns
        rcases hcl : collectInfluencers target.name
            ((analyze_stakeholder_landscape batch).all_stakeholders.map toParsedRecord)
          with _ | infl
        · rw [hcl] at hcoll
          simp at hcoll
        · refine ⟨⟨target.name, target.role, target.stance, target.priority,
              (infl.filter (fun i => i.stance == "Supportive")).map (fun i => i.name),
              (infl.filter (fun i => i.stance == "Neutral")).map (fun i => i.name),
              (infl.filter (fun i => i.stance == "Opposed")).map (fun i => i.name)⟩, ?_⟩
          simp only [leverage_stakeholder_influence, landscapeToData, hft, hcl]
    · rintro ⟨t, ht⟩
      rcases hft : findTargetMCP q
          ((analyze_stakeholder_landscape batch).all_stakeholders.map toParsedRecord)
        with _ | target
      · simp only [leverage_stakeholder_influence, landscapeToData, hft] at ht
        exact absurd ht (by simp)
      · obtain ⟨h1, h2⟩ := findTargetMCP_mem q _ target hft
        rcases List.mem_map.mp h1 with ⟨s0, hs0, rfl⟩
        exact ⟨s0, hs0, h2⟩
  · intro q shs h
    rcases hft : httpFindTarget q shs with _ | tg
    · simp [api_leverage_influence, hft] at h
    · obtain ⟨h1, h2⟩ := httpFindTarget_mem q shs tg hft
      exact ⟨tg, h1, h2⟩
  · intro q shs
    rcases hft : httpFindTarget q shs with _ | tg
    · refine iff_of_true ?_ ?_
      · simp [api_leverage_influence, hft]
      · rintro ⟨s, hs, hn⟩
        exact (httpFindTarget_eq_none_iff q shs).mp hft s hs hn
    · refine iff_of_false ?_ ?_
      · simp only [api_leverage_influence, Option.getD_some, hft]
        split_ifs
        · intro hc
          exact absurd (show "Influence tactics developed successfully"
            = "Stakeholder not found" from hc) (by decide)
        · intro hc
          exact absurd (show "Failed to develop tactics"
            = "Stakeholder not found" from hc) (by decide)
      · obtain ⟨h1, h2⟩ := httpFindTarget_mem q shs tg hft
        exact fun hno => hno ⟨tg, h1, h2⟩
  · intro batchH q
    constructor
    · intro h
      rcases hft : httpFindTarget q
          ((api_analyze_stakeholders batchH).stakeholders.map httpRecordOfAnalyzed)
        with _ | tg
      · simp [api_leverage_influence, hft] at h
      · obtain ⟨h1, h2⟩ := httpFindTarget_mem q _ tg hft
        rcases List.mem_map.mp h1 with ⟨s0, hs0, rfl⟩
        exact ⟨s0, hs0, Option.some.inj h2⟩
    · rintro ⟨s0, hs0, rfl⟩
      have hmem : httpRecordOfAnalyzed s0
          ∈ (api_analyze_stakeholders batchH).stakeholders.map httpRecordOfAnalyzed :=
        List.mem_map_of_mem httpRecordOfAnalyzed hs0
      have hne : httpFindTarget s0.name
          ((api_analyze_stakeholders batchH).stakeholders.map httpRecordOfAnalyzed)
            ≠ none := by
        rw [Ne, httpFindTarget_eq_none_iff]
        intro hall
        exact hall (httpRecordOfAnalyzed s0) hmem rfl
      rcases hft : httpFindTarget s0.name
          ((api_analyze_stakeholders batchH).stakeholders.map httpRecordOfAnalyzed)
        with _ | tg
      · exact absurd hft hne
      · have hnames : ∀ s ∈ (api_analyze_stakeholders batchH).stakeholders.map
            httpRecordOfAnalyzed, s.name.isSome = true := by
          intro s hsx
          rcases List.mem_map.mp hsx with ⟨s1, -, rfl⟩
          rfl
        have hall := take_filter_all_isSome hnames
          (fun s => decide (s.position.getD 0 > mkRat 1 2) && s.name != some s0.name) 3
        simp only [api_leverage_influence, Option.getD_some, hft, hall]
        rfl

def c7shs : List HttpAnalysisRecord :=
  [⟨some "Tt", none, none, none, some 0, none, none⟩]

/-- Claim C7, witness: a concrete record list on which the
success-implies-exact-match conjunct of the amended claim applies, its
hypothesis discharged by evaluation. -/
theorem spec2_c7_witness :
    (api_leverage_influence "Tt" (some c7shs)).success = true
    ∧ ∃ s ∈ c7shs, s.name = some "Tt" :=
  ⟨by with_unfolding_all decide,
    spec2_c7_amended.2.1 "Tt" c7shs (by with_unfolding_all decide)⟩

/-- Claim C8, counterexample.  The claim asserts that every internal error
after input parsing is caught and converted to the uniform failure result.
But when the tool's `stakeholder_analysis_data` parses as JSON yet lacks the
`all_stakeholders` key, the tool raises an uncaught `KeyError` (only
`json.JSONDecodeError` is caught), so a raw exception escapes to the
caller instead of any typed failure result. -/
theorem spec2_c8_counterexample :
    leverage_stakeholder_influence (Blob.parsed ⟨none⟩) "Minister"
      = MCPLevResult.raised := by decide

/-- Claim C8, amended.  On the tool server: an unparsable blob yields the
typed invalid-input result and an unknown target the typed not-found result,
but a blob that parses while lacking `all_stakeholders`, or whose target
record set contains a record without `influence_connections`, raises an
uncaught exception — the tool catches only the JSON-decode error, not
arbitrary internal errors.  On the HTTP endpoint, by contrast, every error
is caught: the typed not-found envelope is produced exactly when the
exact-name search fails, and an internal error after the target is resolved
(the `KeyError` from the bracket read `a["name"]` on a nameless high-position
ally) is converted by the catch-all into the uniform failure envelope with
message "Failed to develop tactics" instead of propagating — shown on a
concrete request whose target is present but whose ally record has no
name. -/
theorem spec2_c8_amended :
    (∀ q : String,
      leverage_stakeholder_influence Blob.unparsable q = MCPLevResult.invalidJsonMessage)
    ∧ (∀ q : String,
        leverage_stakeholder_influence (Blob.parsed ⟨some []⟩) q
          = MCPLevResult.notFoundMessage)
    ∧ (∀ q : String,
        leverage_stakeholder_influence (Blob.parsed ⟨none⟩) q = MCPLevResult.raised)
    ∧ (∀ (nm role stance priority : String) (p u lg : ℚ),
        leverage_stakeholder_influence
          (Blob.parsed ⟨some [⟨nm, role, stance, priority, p, u, lg, none⟩]⟩) nm
          = MCPLevResult.raised)
    ∧ (∀ (q : String) (shs : Option (List HttpAnalysisRecord)),
        ((api_leverage_influence q shs).message = "Stakeholder not found"
          ↔ httpFindTarget q (shs.getD []) = none))
    ∧ api_leverage_influence "Tt"
        (some [⟨some "Tt", none, none, none, none, none, none⟩,
               ⟨none, none, none, none, some 1, none, none⟩])
        = ⟨false, "Failed to develop tactics", none⟩ := by
  refine ⟨fun q => rfl, fun q => rfl, fun q => rfl, ?_, ?_, ?_⟩
  · intro nm role stance priority p u lg
    simp [leverage_stakeholder_influence, findTargetMCP, collectInfluencers]
  · intro q shs
    rcases hft : httpFindTarget q (shs.getD []) with _ | tg
    · exact iff_of_true (by simp [api_leverage_influence, hft]) rfl
    · refine iff_of_false ?_ (by simp [hft])
      simp only [api_leverage_influence, hft]
      split_ifs
      · intro hc
        exact absurd (show "Influence tactics developed successfully"
          = "Stakeholder not found" from hc) (by decide)
      · intro hc
        exact absurd (show "Failed to develop tactics"
          = "Stakeholder not found" from hc) (by decide)
  · with_unfolding_all decide

/-- Claim C9, counterexample.  On the tool server's Iceberg analysis the
common-shared-space block is a fixed template that ignores the inputs: with
identical single-item position lists `["Road access"]` on both sides, no part
of the common space contains the shared literal item, contrary to the
claim. -/
theorem spec2_c9_counterexample :
    ¬ ("Road access"
        ∈ (identify_common_space ["Road access"] ["Rr"] ["Mm"] ["Road access"] [] []).shared_values)
    ∧ ¬ ("Road access"
        ∈ (identify_common_space ["Road access"] ["Rr"] ["Mm"] ["Road access"] [] []).complementary_reasoning)
    ∧ ¬ ("Road access"
        ∈ (identify_common_space ["Road access"] ["Rr"] ["Mm"] ["Road access"] [] []).potential_aligned_positions) := by
  refine ⟨by decide, by decide, by decide⟩

/-- Claim C9, amended.  On the HTTP analyze-icebergs endpoint the claim
holds: identical single-item position lists yield exactly that literal item
as the common ground, and disjoint position lists yield the two fixed
fallback phrases.  The tool server's `_identify_common_space`, by contrast,
returns the same fixed template for all inputs. -/
theorem spec2_c9_amended :
    (∀ (x : String) (orgr orgm : List String) (cpr cpm : Option (List String)),
      (api_analyze_icebergs [x] [x] orgr cpr orgm cpm).common_ground = [x]
      ∧ x ∈ (api_analyze_icebergs [x] [x] orgr cpr orgm cpm).common_ground)
    ∧ (∀ (orgp cpp orgr orgm : List String) (cpr cpm : Option (List String)),
        (∀ a ∈ orgp, a ∉ cpp) →
        (api_analyze_icebergs orgp cpp orgr cpr orgm cpm).common_ground
          = ["Seek to resolve the conflict", "Both parties desire stability"])
    ∧ (∀ a b c d e f a2 b2 c2 d2 e2 f2 : List String,
        identify_common_space a b c d e f = identify_common_space a2 b2 c2 d2 e2 f2) := by
  refine ⟨?_, ?_, fun a b c d e f a2 b2 c2 d2 e2 f2 => rfl⟩
  · intro x orgr orgm cpr cpm
    have hint : pySetIntersect [x] [x] = [x] := by
      simp [pySetIntersect]
    constructor
    · simp [api_analyze_icebergs, hint]
    · simp [api_analyze_icebergs, hint]
  · intro orgp cpp orgr orgm cpr cpm h
    have hempty : pySetIntersect orgp cpp = [] := by
      rw [pySetIntersect, List.filter_eq_nil_iff]
      intro a ha
      have ham : a ∈ orgp := List.mem_dedup.mp ha
      intro hc
      exact h a ham (by simpa using hc)
    simp [api_analyze_icebergs, hempty]

/-- Claim C9, witness: concrete disjoint single-item position lists on which
the fallback branch of the amended claim evaluates. -/
theorem spec2_c9_witness :
    (∀ a ∈ ["Unrestricted access"], a ∉ ["Controlled coordination"])
    ∧ (api_analyze_icebergs ["Unrestricted access"] ["Controlled coordination"]
        ["Rr"] none ["Mm"] none).common_ground
      = ["Seek to resolve the conflict", "Both parties desire stability"] :=
  ⟨by decide,
    spec2_c9_amended.2.1 ["Unrestricted access"] ["Controlled coordination"]
      ["Rr"] ["Mm"] none none (by decide)⟩

def c10batch : List StakeholderInfo :=
  [⟨"Cc", 0, 0, 0, 0, none, none⟩, ⟨"Dd", 1, 0, 0, 0, none, none⟩]

/-- Claim C10, confirmed.  `all_stakeholders` is the per-record analysis of
the batch sorted by (priority score, power) descending — a permutation of
the analyzed input, pairwise non-increasing in the lexicographic key, with
records tied on both keys kept in original input order (stability, stated
over the index-tagged sort) — and every downstream consumer (the three
priority groups, the relationship analysis, the markdown characterization
table) consumes exactly this sorted list.  On `c10batch` the sorted order
differs from the input order. -/
theorem spec2_c10 :
    (∀ batch : List StakeholderInfo,
      (analyze_stakeholder_landscape batch).all_stakeholders
          = pySortDesc recGt (batch.map analyzeOne)
      ∧ List.Perm (analyze_stakeholder_landscape batch).all_stakeholders
          (batch.map analyzeOne)
      ∧ (analyze_stakeholder_landscape batch).all_stakeholders.Pairwise
          (fun a b => b.priority_score < a.priority_score
            ∨ (a.priority_score = b.priority_score ∧ b.power ≤ a.power))
      ∧ (analyze_stakeholder_landscape batch).all_stakeholders
          = (pySortDesc (rFst recGt) (indexFrom 0 (batch.map analyzeOne))).map Prod.fst
      ∧ (pySortDesc (rFst recGt) (indexFrom 0 (batch.map analyzeOne))).Pairwise
          (fun p q => recGt p.1 q.1
            ∨ (p.1.priority_score = q.1.priority_score ∧ p.1.power = q.1.power
                ∧ p.2 < q.2))
      ∧ (analyze_stakeholder_landscape batch).first_priority
          = (analyze_stakeholder_landscape batch).all_stakeholders.filter
              (fun s => s.priority == "First Priority")
      ∧ (analyze_stakeholder_landscape batch).second_priority
          = (analyze_stakeholder_landscape batch).all_stakeholders.filter
              (fun s => s.priority == "Second Priority")
      ∧ (analyze_stakeholder_landscape batch).third_priority
          = (analyze_stakeholder_landscape batch).all_stakeholders.filter
              (fun s => s.priority == "Third Priority")
      ∧ (analyze_stakeholder_landscape batch).relationship_analysis
          = analyze_relationships (analyze_stakeholder_landscape batch).all_stakeholders
      ∧ stakeholderTableRows (analyze_stakeholder_landscape batch)
          = (analyze_stakeholder_landscape batch).all_stakeholders.map
              (fun sh => "| " ++ sh.name ++ " | " ++ sh.role ++ " | " ++ sh.stance
                ++ " | " ++ sh.priority ++ " |"))
    ∧ (analyze_stakeholder_landscape c10batch).all_stakeholders
        ≠ c10batch.map analyzeOne := by
  constructor
  · intro batch
    refine ⟨rfl, pySortDesc_perm recGt (batch.map analyzeOne), ?_, ?_, ?_,
      rfl, rfl, rfl, rfl, rfl⟩
    · refine (pySortDesc_pairwise recGt recGt_trans recGt_asymm (batch.map analyzeOne)).imp ?_
      intro a b h
      unfold recGt at h
      push_neg at h
      obtain ⟨h1, h2⟩ := h
      by_cases he : a.priority_score = b.priority_score
      · exact Or.inr ⟨he, h2 he.symm⟩
      · exact Or.inl (by omega)
    · show pySortDesc recGt (batch.map analyzeOne) = _
      rw [pySortDesc_map_fst recGt, indexFrom_map_fst]
    · refine (pySortDesc_stable recGt recGt_trans recGt_negtrans
        (indexFrom 0 (batch.map analyzeOne))
        (indexFrom_pairwise 0 (batch.map analyzeOne))).imp ?_
      intro p q h
      rcases h with h | ⟨h1, h2, h3⟩
      · exact Or.inl h
      · unfold recGt at h1 h2
        push_neg at h1 h2
        obtain ⟨h1a, h1b⟩ := h1
        obtain ⟨h2a, h2b⟩ := h2
        have he : p.1.priority_score = q.1.priority_score := by omega
        exact Or.inr ⟨he, le_antisymm (h1b he) (h2b he.symm), h3⟩
  · decide

end HNeg
